import Mathlib

/-!
Verification of `scripts/01_subset_views.py` (sparse-view subset builder).

The file shallowly embeds the view-selection and subset-assembly engine:

* `normalize_frame_name` embeds `_normalize_frame_name` (strip every `./`
  occurrence, then take the path stem as `pathlib.Path.stem` computes it);
* `choose_views` embeds `_choose_views` (explicit names, explicit indices,
  take-all, seeded random sample, uniform spacing with forward-collision
  resolution); fallible paths (`random.sample` on a negative count, the
  `len/view_count` division by zero) are returned as `Except.error`;
* `create_view_subset` embeds the assembler: destroy-and-recreate of the
  subset directory, truthiness coalescing of `view_count`, the training
  manifest precondition, per-manifest filtering under `full_test_set`,
  and the manifest writes, as a pure function from the raw dataset and
  the pre-existing subset-directory state to the new state and a summary.

Modelling notes.  Python computes the uniform stride `len/view_count` in
double precision; since `int(i * (len/count))` agrees with the exact value
`i * len / count` (floor division) for all catalog sizes a dataset can
have, the embedding uses exact natural-number division.  `random.Random`
is standard-library code outside this repository; it is modelled as a pure
linear-congruential sampler without replacement, which is faithful to the
properties the code relies on (seed-determinism, distinct positions,
result length).  The asset copier (`_copy_images`) runs after all manifest
writes and is not needed by any claim about manifests, so it is outside
the model.
-/

/-- Python `s.replace("./", "")`: delete every non-overlapping occurrence of
the two-character substring `./`, scanning left to right. -/
def replaceDotSlash : List Char → List Char
  | '.' :: '/' :: rest => replaceDotSlash rest
  | c :: rest => c :: replaceDotSlash rest
  | [] => []

/-- Split a character list on `/` separators (components may be empty). -/
def splitSlash : List Char → List (List Char)
  | [] => [[]]
  | '/' :: rest => [] :: splitSlash rest
  | c :: rest =>
    match splitSlash rest with
    | [] => [[c]]
    | comp :: comps => (c :: comp) :: comps

/-- `pathlib` drops empty components and `.` components; the path's `name`
is the last remaining component (empty if none remain). -/
def pathNameChars (cs : List Char) : List Char :=
  ((splitSlash cs).filter (fun comp => comp ≠ [] ∧ comp ≠ ['.'])).getLastD []

/-- Index of the last occurrence of `c`, if any. -/
def lastIdxOf (c : Char) : List Char → Option Nat
  | [] => none
  | x :: xs =>
    match lastIdxOf c xs with
    | some i => some (i + 1)
    | none => if x = c then some 0 else none

/-- `pathlib` stem rule on a file name: drop the final `.`-suffix when the
last dot sits strictly inside the name (`0 < i < len - 1`). -/
def stemChars (name : List Char) : List Char :=
  match lastIdxOf '.' name with
  | some i => if 0 < i ∧ i + 1 < name.length then name.take i else name
  | none => name

/-- Python `Path(s).stem`. -/
def pathStem (s : String) : String :=
  ⟨stemChars (pathNameChars s.toList)⟩

/-- Embeds `_normalize_frame_name`:
`Path(file_path.replace("./", "")).stem`. -/
def normalize_frame_name (file_path : String) : String :=
  pathStem ⟨replaceDotSlash file_path.toList⟩

/-- `dict.fromkeys` ordering: keep the first occurrence of each element. -/
def dedupFirstAux : List String → List String → List String
  | _, [] => []
  | seenL, x :: xs =>
    if x ∈ seenL then dedupFirstAux seenL xs
    else x :: dedupFirstAux (x :: seenL) xs

/-- Python `list(dict.fromkeys(l))`. -/
def dedupFirst (l : List String) : List String :=
  dedupFirstAux [] l

/-- One frame record of a transforms manifest: its `file_path` plus an
opaque payload (camera transform and any other per-frame fields). -/
structure Frame where
  file_path : String
  payload : String
deriving DecidableEq, Repr

/-- A transforms manifest: the ordered `frames` list plus the remaining
top-level fields, kept opaque (e.g. `camera_angle_x`). -/
structure Manifest where
  frames : List Frame
  rest : List (String × String)
deriving DecidableEq, Repr

/-- Line 35 of the script: normalized names of a catalog, in order. -/
def frameNames (frames : List Frame) : List String :=
  frames.map (fun f => normalize_frame_name f.file_path)

/-- Modelled from the spec: `random.Random` is Python standard-library code,
not part of this repository.  The spec requires a seeded sampler drawing
distinct names such that the same seed and the same catalog give the
identical sample.  A 64-bit linear congruential generator stands in for the
Mersenne Twister; it is a pure function of the seed. -/
def lcgNext (s : Nat) : Nat :=
  (6364136223846793005 * s + 1442695040888963407) % 18446744073709551616

/-- Modelled from the spec: reduce `random.Random(seed)`'s seed argument to
the generator's initial state.  The unseeded case (`seed=None`) draws from
OS entropy in Python; the model fixes it arbitrarily, and no determinism
theorem relies on the unseeded case. -/
def seedInit : Option Int → Nat
  | none => 0
  | some s => (s.natAbs + 1) % 18446744073709551616

/-- Modelled from the spec: selection without replacement — draw `k`
positions, removing each drawn element from the pool. -/
def sampleGo {α : Type} (st : Nat) : Nat → List α → List α
  | 0, _ => []
  | _ + 1, [] => []
  | k + 1, a :: rest =>
    let st' := lcgNext st
    let i := st' % (a :: rest).length
    (a :: rest).get ⟨i, Nat.mod_lt _ (Nat.succ_pos _)⟩ ::
      sampleGo st' k ((a :: rest).eraseIdx i)

/-- Modelled from the spec: `random.Random(seed).sample(pop, k)` for
`0 ≤ k ≤ len(pop)`. -/
def pySample {α : Type} (seed : Option Int) (pop : List α) (k : Nat) : List α :=
  sampleGo (seedInit seed) k pop

/-- The explicit-indices loop (lines 44-47): keep `frame_names[idx]` for
each `idx` with `0 <= idx < len(frame_names)`, drop the rest. -/
def selectByIndices (names : List String) : List Int → List String
  | [] => []
  | idx :: rest =>
    if 0 ≤ idx ∧ idx < (names.length : Int) then
      names.getD idx.toNat "" :: selectByIndices names rest
    else
      selectByIndices names rest

/-- Line 58-61: `min(int(i * (len/view_count)), len - 1)` for
`i in range(view_count)`, with the float stride evaluated exactly. -/
def uniformIndices (len n : Nat) : List Nat :=
  (List.range n).map (fun i => min (i * len / n) (len - 1))

/-- Lines 62-68: the forward-collision loop.  Returns the selected index
list together with a flag recording whether the `idx in seen` branch ever
fired. -/
def collisionGo (len : Nat) : List Nat → List Nat → List Nat × Bool
  | _, [] => ([], false)
  | seenL, idx :: rest =>
    let hit : Bool := idx ∈ seenL
    let idx' := if idx ∈ seenL then min (idx + 1) (len - 1) else idx
    let r := collisionGo len (idx' :: seenL) rest
    (idx' :: r.1, hit || r.2)

/-- The uniform-spacing branch (lines 57-69) for `view_count = n`. -/
def uniformSelect (names : List String) (n : Nat) : List String :=
  ((collisionGo names.length [] (uniformIndices names.length n)).1).map
    (fun i => names.getD i "")

/-- Whether an actual execution of the uniform branch on this catalog and
this `view_count` runs the collision-resolution line: the branch is reached
only when `view_count < len(frame_names)`. -/
def uniformBranchCollides (names : List String) (vc : Int) : Bool :=
  decide (vc < (names.length : Int)) &&
    (collisionGo names.length [] (uniformIndices names.length vc.toNat)).2

/-- The core of `_choose_views` after `frame_names` is computed: the four
resolution branches over the normalized-name catalog.  Python exceptions
(`ValueError` from `random.sample`, `ZeroDivisionError` from the stride)
are modelled as `Except.error`. -/
def chooseViewsNames (names_cat : List String) (view_count : Option Int)
    (indices : List Int) (names : List String) (strategy : String)
    (seed : Option Int) : Except String (List String) :=
  if names ≠ [] then
    Except.ok (dedupFirst (names.map pathStem))
  else if indices ≠ [] then
    Except.ok (dedupFirst (selectByIndices names_cat indices))
  else
    match view_count with
    | none => Except.ok names_cat
    | some vc =>
      if vc ≥ (names_cat.length : Int) then
        Except.ok names_cat
      else if strategy = "random" then
        let k := min vc (names_cat.length : Int)
        if 0 ≤ k then
          Except.ok (pySample seed names_cat k.toNat)
        else
          Except.error "ValueError: sample larger than population or is negative"
      else
        if vc = 0 then
          Except.error "ZeroDivisionError: division by zero"
        else
          Except.ok (uniformSelect names_cat vc.toNat)

/-- Embeds `_choose_views` (lines 26-69). -/
def choose_views (frames : List Frame) (view_count : Option Int)
    (indices : List Int) (names : List String) (strategy : String)
    (seed : Option Int) : Except String (List String) :=
  chooseViewsNames (frameNames frames) view_count indices names strategy seed

/-- The `selection` dictionary consumed by `create_view_subset`
(lines 110-115): absent keys are `none`/empty. -/
structure Selection where
  indices : List Int := []
  names : List String := []
  strategy : Option String := none
  seed : Option Int := none
  view_count : Option Int := none
deriving DecidableEq, Repr

/-- Python `a or b` on optional integers: `None` and `0` are falsy
(line 115, `view_count = view_count or selection.get("view_count")`). -/
def pyOr (a b : Option Int) : Option Int :=
  match a with
  | some x => if x ≠ 0 then some x else b
  | none => b

/-- The raw dataset directory: which of the three transform manifests
exist, and their contents. -/
structure RawDir where
  train : Option Manifest := none
  val : Option Manifest := none
  test : Option Manifest := none
deriving DecidableEq, Repr

/-- The manifest stored in the raw directory under a given file name. -/
def rawManifest (raw : RawDir) (name : String) : Option Manifest :=
  if name = "transforms_train.json" then raw.train
  else if name = "transforms_val.json" then raw.val
  else if name = "transforms_test.json" then raw.test
  else none

/-- Observable state of the subset directory: whether it exists and which
manifest files it holds (name, contents). -/
structure SubsetDirState where
  present : Bool
  files : List (String × Manifest)
deriving DecidableEq, Repr

/-- Look a written manifest up by file name. -/
def fileLookup (files : List (String × Manifest)) (name : String) :
    Option Manifest :=
  match files with
  | [] => none
  | (n, m) :: rest => if n = name then some m else fileLookup rest name

/-- The summary dictionary returned by `create_view_subset`
(lines 161-169). -/
structure SubsetSummary where
  view_count : Nat
  selected_views : List String
  strategy : String
  files : List (String × Nat)
deriving DecidableEq, Repr

/-- The per-manifest body of the write loop (lines 141-156): keep all
frames for a held-out manifest under `full_test_set`, otherwise filter by
membership of the normalized name in the selected set; all other manifest
fields are carried over unchanged. -/
def processManifest (selected : List String) (full_test_set : Bool)
    (name : String) (m : Manifest) : Manifest :=
  let is_train := name = "transforms_train.json"
  let use_full := full_test_set && !is_train
  let fs :=
    if use_full then m.frames
    else m.frames.filter (fun fr => normalize_frame_name fr.file_path ∈ selected)
  { m with frames := fs }

/-- The transform files found on disk, in the loop's order
(lines 132-136): train always, then val and test when they exist. -/
def transformFiles (t : Manifest) (raw : RawDir) : List (String × Manifest) :=
  ("transforms_train.json", t) ::
    ((match raw.val with
      | some v => [("transforms_val.json", v)]
      | none => []) ++
     (match raw.test with
      | some te => [("transforms_test.json", te)]
      | none => []))

/-- Embeds `create_view_subset` (lines 90-169) as a pure transition on the
subset-directory state.  The effects happen in the script's order: the
subset directory is destroyed and recreated (lines 106-108) before the
training-manifest precondition is checked (lines 117-119), so a failure of
either the precondition or the selector leaves a freshly recreated empty
directory.  On success every manifest write lands in the new state and the
summary is returned. -/
def create_view_subset (raw : RawDir) (pre : SubsetDirState)
    (view_count : Option Int) (selection : Selection)
    (full_test_set : Bool) : SubsetDirState × Except String SubsetSummary :=
  let dir0 : SubsetDirState := ⟨true, []⟩
  let indices := selection.indices
  let names := selection.names
  let strategy := selection.strategy.getD "uniform"
  let seed := selection.seed
  let vc := pyOr view_count selection.view_count
  match raw.train with
  | none => (dir0, Except.error "FileNotFoundError: Transform file not found")
  | some t =>
    match choose_views t.frames vc indices names strategy seed with
    | Except.error e => (dir0, Except.error e)
    | Except.ok selected_views =>
      let outs := (transformFiles t raw).map
        (fun p => (p.1, processManifest selected_views full_test_set p.1 p.2))
      (⟨true, outs⟩,
       Except.ok
         { view_count := selected_views.length
           selected_views := selected_views
           strategy := strategy
           files := outs.map (fun p => (p.1, p.2.frames.length)) })

/-- The explicit-indices rule as the spec words it: for each index, if it
is a valid position within the catalog, map it to that position's
normalized frame name; out-of-range indices are silently dropped;
deduplicate preserving first-occurrence order.  Stated independently of
the loop in the source so the two can be compared. -/
def specIndicesSelect (names_cat : List String) (indices : List Int) :
    List String :=
  dedupFirst (indices.filterMap (fun i =>
    if hi : 0 ≤ i ∧ i.toNat < names_cat.length then
      some (names_cat.get ⟨i.toNat, hi.2⟩)
    else none))

/-! ### Helper lemmas -/

theorem dedupFirstAux_not_mem_seen :
    ∀ (l seenL : List String) (x : String),
      x ∈ dedupFirstAux seenL l → x ∉ seenL := by
  intro l
  induction l with
  | nil => intro seenL x hx; simp [dedupFirstAux] at hx
  | cons y ys ih =>
    intro seenL x hx
    by_cases hy : y ∈ seenL
    · exact ih seenL x (by simpa [dedupFirstAux, hy] using hx)
    · simp only [dedupFirstAux, if_neg hy, List.mem_cons] at hx
      rcases hx with rfl | hx
      · exact hy
      · intro hmem
        exact ih (y :: seenL) x hx (List.mem_cons_of_mem _ hmem)

theorem dedupFirstAux_nodup :
    ∀ (l seenL : List String), (dedupFirstAux seenL l).Nodup := by
  intro l
  induction l with
  | nil => intro seenL; simp [dedupFirstAux]
  | cons y ys ih =>
    intro seenL
    by_cases hy : y ∈ seenL
    · simpa [dedupFirstAux, hy] using ih seenL
    · simp only [dedupFirstAux, if_neg hy, List.nodup_cons]
      refine ⟨fun hmem => ?_, ih (y :: seenL)⟩
      exact dedupFirstAux_not_mem_seen ys (y :: seenL) y hmem (List.mem_cons_self _ _)

/-- `dict.fromkeys` output never repeats an element. -/
theorem dedupFirst_nodup (l : List String) : (dedupFirst l).Nodup :=
  dedupFirstAux_nodup l []

theorem get_cons_eraseIdx_perm :
    ∀ (l : List α) (i : Nat) (h : i < l.length),
      List.Perm (l.get ⟨i, h⟩ :: l.eraseIdx i) l := by
  intro l
  induction l with
  | nil => intro i h; simp at h
  | cons a xs ih =>
    intro i h
    cases i with
    | zero => simp [List.eraseIdx]
    | succ i =>
      have h' : i < xs.length := by simpa using h
      exact List.Perm.trans (List.Perm.swap _ _ _) (List.Perm.cons a (ih i h'))

/-- A sample without replacement is a sub-permutation of the pool. -/
theorem sampleGo_subperm {α : Type} :
    ∀ (k st : Nat) (pop : List α), List.Subperm (sampleGo st k pop) pop := by
  intro k
  induction k with
  | zero => intro st pop; exact List.nil_subperm
  | succ k ih =>
    intro st pop
    cases pop with
    | nil => exact List.nil_subperm
    | cons a rest =>
      simp only [sampleGo]
      have hperm := get_cons_eraseIdx_perm (a :: rest)
        (lcgNext st % (a :: rest).length) (Nat.mod_lt _ (Nat.succ_pos _))
      exact List.Subperm.trans ((List.subperm_cons _).mpr (ih _ _))
        (List.Perm.subperm hperm)

theorem subperm_nodup {α : Type} {l₁ l₂ : List α} (h : List.Subperm l₁ l₂)
    (h₂ : l₂.Nodup) : l₁.Nodup := by
  obtain ⟨l, hp, hs⟩ := h
  exact hp.nodup (h₂.sublist hs)

theorem uniformIndices_clamp {len n i : Nat} (hn : 1 ≤ n) (hlt : n < len)
    (hi : i < n) : min (i * len / n) (len - 1) = i * len / n := by
  have hle : i * len ≤ (n - 1) * len :=
    Nat.mul_le_mul_right _ (Nat.le_sub_one_of_lt hi)
  have hdiv : (n - 1) * len / n < len := by
    rw [Nat.div_lt_iff_lt_mul (Nat.lt_of_lt_of_le Nat.zero_lt_one hn)]
    have hsub : n - 1 < n :=
      Nat.sub_lt (Nat.lt_of_lt_of_le Nat.zero_lt_one hn) Nat.zero_lt_one
    have hlen0 : 0 < len := Nat.lt_trans (Nat.lt_of_lt_of_le Nat.zero_lt_one hn) hlt
    calc (n - 1) * len < n * len := (Nat.mul_lt_mul_right hlen0).mpr hsub
      _ = len * n := Nat.mul_comm _ _
  have : i * len / n < len := Nat.lt_of_le_of_lt (Nat.div_le_div_right hle) hdiv
  exact Nat.min_eq_left (Nat.le_sub_one_of_lt this)

theorem uniformIndices_strict_mono {len n : Nat} (hn : 1 ≤ n) (hlt : n < len) :
    (uniformIndices len n).Pairwise (· < ·) := by
  unfold uniformIndices
  rw [List.pairwise_map]
  refine (List.pairwise_lt_range n).imp_of_mem ?_
  intro i j hi hj hij
  have hi' : i < n := List.mem_range.mp hi
  have hj' : j < n := List.mem_range.mp hj
  rw [uniformIndices_clamp hn hlt hi', uniformIndices_clamp hn hlt hj']
  have hstep : i * len / n + 1 ≤ (i + 1) * len / n := by
    have h1 : i * len / n + 1 = (i * len + n) / n :=
      (Nat.add_div_right _ (Nat.lt_of_lt_of_le Nat.zero_lt_one hn)).symm
    have h2 : (i * len + n) / n ≤ (i * len + len) / n :=
      Nat.div_le_div_right (Nat.add_le_add_left (Nat.le_of_lt hlt) _)
    have h3 : i * len + len = (i + 1) * len := by ring
    rw [h1, ← h3]
    exact h2
  have hij' : (i + 1) * len ≤ j * len := Nat.mul_le_mul_right _ hij
  exact Nat.lt_of_lt_of_le (Nat.lt_of_lt_of_le (Nat.lt_succ_self _) hstep)
    (Nat.div_le_div_right hij')

theorem uniformIndices_nodup {len n : Nat} (hn : 1 ≤ n) (hlt : n < len) :
    (uniformIndices len n).Nodup :=
  (uniformIndices_strict_mono hn hlt).imp Nat.ne_of_lt

theorem uniformIndices_lt_len {len n : Nat} (hlen : 0 < len) :
    ∀ i ∈ uniformIndices len n, i < len := by
  intro i hi
  unfold uniformIndices at hi
  obtain ⟨j, _, rfl⟩ := List.mem_map.mp hi
  exact Nat.lt_of_le_of_lt (Nat.min_le_right _ _) (Nat.sub_lt hlen Nat.zero_lt_one)

theorem uniformIndices_length (len n : Nat) :
    (uniformIndices len n).length = n := by
  simp [uniformIndices]

/-- On a duplicate-free index list disjoint from `seenL`, the collision
branch never fires and the loop is the identity. -/
theorem collisionGo_of_nodup {len : Nat} :
    ∀ (l seenL : List Nat), l.Nodup → (∀ x ∈ l, x ∉ seenL) →
      collisionGo len seenL l = (l, false) := by
  intro l
  induction l with
  | nil => intro seenL _ _; rfl
  | cons idx rest ih =>
    intro seenL hnd hdis
    have hidx : idx ∉ seenL := hdis idx (List.mem_cons_self _ _)
    have hrest : rest.Nodup := (List.nodup_cons.mp hnd).2
    have hhead : idx ∉ rest := (List.nodup_cons.mp hnd).1
    have hdis' : ∀ x ∈ rest, x ∉ idx :: seenL := by
      intro x hx
      simp only [List.mem_cons, not_or]
      exact ⟨fun hxe => hhead (hxe ▸ hx), hdis x (List.mem_cons_of_mem _ hx)⟩
    simp [collisionGo, hidx, ih (idx :: seenL) hrest hdis']

/-- In a reachable execution of the uniform branch (`1 ≤ n < len`) the
collision loop is the identity on the computed index list. -/
theorem collisionGo_uniform {len n : Nat} (hn : 1 ≤ n) (hlt : n < len) :
    collisionGo len [] (uniformIndices len n) = (uniformIndices len n, false) :=
  collisionGo_of_nodup (uniformIndices len n) [] (uniformIndices_nodup hn hlt)
    (by intro x _ hx; simp at hx)

theorem uniformSelect_eq {names : List String} {n : Nat} (hn : 1 ≤ n)
    (hlt : n < names.length) :
    uniformSelect names n =
      (uniformIndices names.length n).map (fun i => names.getD i "") := by
  unfold uniformSelect
  rw [collisionGo_uniform hn hlt]

theorem uniformSelect_length {names : List String} {n : Nat} (hn : 1 ≤ n)
    (hlt : n < names.length) : (uniformSelect names n).length = n := by
  rw [uniformSelect_eq hn hlt, List.length_map, uniformIndices_length]

theorem map_getD_nodup {names : List String} {idxs : List Nat}
    (hnames : names.Nodup) (hidx : idxs.Nodup)
    (hlt : ∀ i ∈ idxs, i < names.length) :
    (idxs.map (fun i => names.getD i "")).Nodup := by
  refine List.Nodup.map_on ?_ hidx
  intro i hi j hj heq
  have hi' := hlt i hi
  have hj' := hlt j hj
  rw [List.getD_eq_getElem names "" hi', List.getD_eq_getElem names "" hj'] at heq
  exact (hnames.getElem_inj_iff).mp heq

/-- The explicit-indices loop written as the spec words it: each in-range
index maps to that position's normalized name, the rest are dropped. -/
theorem selectByIndices_eq_filterMap (names : List String) :
    ∀ idxL : List Int,
      selectByIndices names idxL =
        idxL.filterMap (fun i =>
          if hi : 0 ≤ i ∧ i.toNat < names.length then
            some (names.get ⟨i.toNat, hi.2⟩)
          else none) := by
  intro idxL
  induction idxL with
  | nil => rfl
  | cons idx rest ih =>
    by_cases h : 0 ≤ idx ∧ idx < (names.length : Int)
    · have ht : idx.toNat < names.length := by
        have := h.2
        rw [← Int.toNat_of_nonneg h.1] at this
        exact_mod_cast this
      have hd : 0 ≤ idx ∧ idx.toNat < names.length := ⟨h.1, ht⟩
      simp only [selectByIndices, if_pos h, List.filterMap_cons, dif_pos hd, ih,
        List.get_eq_getElem, List.getD_eq_getElem names "" ht]
    · have h' : ¬(0 ≤ idx ∧ idx.toNat < names.length) := by
        intro hc
        refine h ⟨hc.1, ?_⟩
        have := hc.2
        rw [← Int.toNat_of_nonneg hc.1]
        exact_mod_cast this
      simp only [selectByIndices, if_neg h, List.filterMap_cons, dif_neg h', ih]

theorem processManifest_rest (selected : List String) (ft : Bool)
    (name : String) (m : Manifest) :
    (processManifest selected ft name m).rest = m.rest := rfl

/-! ### Claim theorems -/

/-- C7: a non-empty `names` policy makes the selector return exactly the
given names normalized to bare identifiers, deduplicated preserving
first-occurrence order; the result does not depend on the catalog, the
indices, the strategy, the seed or the count, so this branch takes
precedence over all of them. -/
theorem names_branch_returns_normalized_dedup
    (frames : List Frame) (view_count : Option Int) (indices : List Int)
    (names : List String) (strategy : String) (seed : Option Int)
    (h : names ≠ []) :
    choose_views frames view_count indices names strategy seed =
      Except.ok (dedupFirst (names.map pathStem)) := by
  simp [choose_views, chooseViewsNames, h]

/-- Witness for C7 at `names=["b","a","b"]`: the result is `["b","a"]`
(first occurrence kept, input order preserved), with a non-trivial
catalog, indices, strategy, count and seed all ignored. -/
theorem names_branch_returns_normalized_dedup_witness :
    (["b", "a", "b"] : List String) ≠ [] ∧
    choose_views [⟨"./x/r_9.png", "pose9"⟩] (some 5) [3] ["b", "a", "b"]
      "random" (some 7) = Except.ok ["b", "a"] :=
  ⟨by decide,
    (names_branch_returns_normalized_dedup [⟨"./x/r_9.png", "pose9"⟩] (some 5)
      [3] ["b", "a", "b"] "random" (some 7) (by decide)).trans (by rfl)⟩

/-- C8: with `names` empty and `indices` non-empty the selector behaves as
the spec's indices rule: valid positions map to their normalized names,
out-of-range indices (including negative ones — no Python wraparound) are
silently dropped, and the result is deduplicated preserving
first-occurrence order. -/
theorem indices_branch_matches_spec
    (frames : List Frame) (view_count : Option Int) (indices : List Int)
    (names : List String) (strategy : String) (seed : Option Int)
    (hn : names = []) (hi : indices ≠ []) :
    choose_views frames view_count indices names strategy seed =
      Except.ok (specIndicesSelect (frameNames frames) indices) := by
  subst hn
  simp [choose_views, chooseViewsNames, hi, specIndicesSelect,
    selectByIndices_eq_filterMap]

/-- Witness for C8 on a catalog of size 5 with `indices=[0,4,10,-1]`: only
positions 0 and 4 survive, in that order. -/
theorem indices_branch_matches_spec_witness :
    ([0, 4, 10, -1] : List Int) ≠ [] ∧
    choose_views
      [⟨"r_0.png", "a"⟩, ⟨"r_1.png", "b"⟩, ⟨"r_2.png", "c"⟩,
       ⟨"r_3.png", "d"⟩, ⟨"r_4.png", "e"⟩]
      none [0, 4, 10, -1] [] "uniform" none = Except.ok ["r_0", "r_4"] :=
  ⟨by decide,
    (indices_branch_matches_spec
      [⟨"r_0.png", "a"⟩, ⟨"r_1.png", "b"⟩, ⟨"r_2.png", "c"⟩,
       ⟨"r_3.png", "d"⟩, ⟨"r_4.png", "e"⟩]
      none [0, 4, 10, -1] [] "uniform" none rfl (by decide)).trans (by rfl)⟩

/-- C6: the selection depends only on the normalized-name catalog and the
policy: two catalogs with the same normalized names (frame payloads and
raw paths may differ) and the same policy give identical output.  For the
random strategy this is asserted under a fixed seed; the unseeded sampler
draws OS entropy in Python, which the pure model cannot distinguish, so no
determinism is claimed without the hypothesis. -/
theorem select_deterministic
    (f1 f2 : List Frame) (view_count : Option Int) (indices : List Int)
    (names : List String) (strategy : String) (seed : Option Int)
    (hcat : frameNames f1 = frameNames f2)
    (hdet : strategy = "uniform" ∨ seed ≠ none) :
    choose_views f1 view_count indices names strategy seed =
      choose_views f2 view_count indices names strategy seed := by
  unfold choose_views
  rw [hcat]

/-- Witness for C6: two catalogs that differ in raw paths and payloads but
normalize to the same names produce the identical seeded random sample. -/
theorem select_deterministic_witness :
    frameNames [⟨"./a.png", "p1"⟩, ⟨"./b.png", "p2"⟩] =
      frameNames [⟨"a.png", "q1"⟩, ⟨"b.png", "q2"⟩] ∧
    choose_views [⟨"./a.png", "p1"⟩, ⟨"./b.png", "p2"⟩] (some 1) [] []
        "random" (some 3) =
      choose_views [⟨"a.png", "q1"⟩, ⟨"b.png", "q2"⟩] (some 1) [] []
        "random" (some 3) :=
  ⟨by decide,
    select_deterministic [⟨"./a.png", "p1"⟩, ⟨"./b.png", "p2"⟩]
      [⟨"a.png", "q1"⟩, ⟨"b.png", "q2"⟩] (some 1) [] [] "random" (some 3)
      (by decide) (Or.inr (by decide))⟩

/-- Counterexample to C3 as stated: with `view_count=0`, empty names and
indices, the uniform strategy and a non-empty catalog, `_choose_views`
evaluates `len(frame_names) / view_count` and raises `ZeroDivisionError`
instead of degrading. -/
theorem selector_error_on_zero_uniform_cex :
    choose_views [⟨"r_0.png", "pose"⟩] (some 0) [] [] "uniform" none =
      Except.error "ZeroDivisionError: division by zero" := rfl

/-- C3 amended: the selector raises no error for any catalog and any
policy whose `view_count` is absent or at least 1 (with `view_count = 0`
the uniform strategy divides by zero on a non-empty catalog, and with a
negative `view_count` the random strategy's `random.sample` raises
`ValueError`). -/
theorem selector_no_error_of_positive_count
    (frames : List Frame) (view_count : Option Int) (indices : List Int)
    (names : List String) (strategy : String) (seed : Option Int)
    (h : view_count = none ∨ ∃ k, view_count = some k ∧ 1 ≤ k) :
    ∃ r, choose_views frames view_count indices names strategy seed =
      Except.ok r := by
  unfold choose_views chooseViewsNames
  by_cases hn : names ≠ []
  · rw [if_pos hn]; exact ⟨_, rfl⟩
  · rw [if_neg hn]
    by_cases hi : indices ≠ []
    · rw [if_pos hi]; exact ⟨_, rfl⟩
    · rw [if_neg hi]
      rcases h with rfl | ⟨k, rfl, hk⟩
      · exact ⟨_, rfl⟩
      · show ∃ r, (if k ≥ ((frameNames frames).length : Int) then _ else _) = _
        by_cases hge : k ≥ ((frameNames frames).length : Int)
        · rw [if_pos hge]; exact ⟨_, rfl⟩
        · rw [if_neg hge]
          by_cases hs : strategy = "random"
          · rw [if_pos hs,
              if_pos (le_min (by omega) (Int.natCast_nonneg _))]
            exact ⟨_, rfl⟩
          · rw [if_neg hs, if_neg (by omega : ¬k = 0)]
            exact ⟨_, rfl⟩

/-- Witness for C3 (amended) at a concrete positive count. -/
theorem selector_no_error_of_positive_count_witness :
    ((some 2 : Option Int) = none ∨ ∃ k, (some 2 : Option Int) = some k ∧ 1 ≤ k) ∧
    ∃ r, choose_views [⟨"r_0.png", "a"⟩, ⟨"r_1.png", "b"⟩, ⟨"r_2.png", "c"⟩]
      (some 2) [] [] "random" (some 5) = Except.ok r :=
  ⟨Or.inr ⟨2, rfl, by omega⟩,
    selector_no_error_of_positive_count
      [⟨"r_0.png", "a"⟩, ⟨"r_1.png", "b"⟩, ⟨"r_2.png", "c"⟩] (some 2) [] []
      "random" (some 5) (Or.inr ⟨2, rfl, by omega⟩)⟩

/-- Counterexample to C4 as stated: there is no catalog, count and seed for
which the uniform branch both runs its forward-collision resolution and
returns fewer than `view_count` distinct names — the collision line is
unreachable, because the branch only executes when `view_count` is smaller
than the catalog and then the computed indices are strictly increasing. -/
theorem uniform_collision_unreachable_cex :
    ¬ ∃ (frames : List Frame) (vc : Int) (seed : Option Int) (r : List String),
        choose_views frames (some vc) [] [] "uniform" seed = Except.ok r ∧
        uniformBranchCollides (frameNames frames) vc = true ∧
        ((dedupFirst r).length : Int) < vc := by
  rintro ⟨frames, vc, seed, r, _, hcol, _⟩
  unfold uniformBranchCollides at hcol
  rw [Bool.and_eq_true, decide_eq_true_eq] at hcol
  obtain ⟨hvlt, hflag⟩ := hcol
  by_cases hv : vc ≤ 0
  · have h0 : vc.toNat = 0 := by omega
    rw [h0] at hflag
    simp [uniformIndices, collisionGo] at hflag
  · have h1 : 1 ≤ vc.toNat := by omega
    have h2 : vc.toNat < (frameNames frames).length := by omega
    rw [collisionGo_uniform h1 h2] at hflag
    simp at hflag

/-- C4 amended: whenever the uniform branch actually executes
(`1 ≤ view_count < catalog size`, empty names and indices), the collision
resolution never fires and the selector returns exactly `view_count`
entries; a shortfall of distinct names can only come from distinct catalog
positions sharing a normalized name, never from collision resolution. -/
theorem uniform_branch_exact_count
    (frames : List Frame) (vc : Int) (seed : Option Int)
    (h1 : 1 ≤ vc) (h2 : vc < ((frameNames frames).length : Int)) :
    uniformBranchCollides (frameNames frames) vc = false ∧
    choose_views frames (some vc) [] [] "uniform" seed =
      Except.ok (uniformSelect (frameNames frames) vc.toNat) ∧
    (uniformSelect (frameNames frames) vc.toNat).length = vc.toNat := by
  have h1' : 1 ≤ vc.toNat := by omega
  have h2' : vc.toNat < (frameNames frames).length := by omega
  refine ⟨?_, ?_, uniformSelect_length h1' h2'⟩
  · unfold uniformBranchCollides
    rw [collisionGo_uniform h1' h2']
    simp
  · unfold choose_views chooseViewsNames
    rw [if_neg (by simp), if_neg (by simp)]
    show (if vc ≥ ((frameNames frames).length : Int) then _ else _) = _
    rw [if_neg (by omega), if_neg (by decide : ¬("uniform" : String) = "random"),
      if_neg (by omega : ¬vc = 0)]

/-- Witness for C4 (amended): catalog of 10 frames, `view_count=3`. -/
theorem uniform_branch_exact_count_witness :
    (1 : Int) ≤ 3 ∧ (3 : Int) < 10 ∧
    uniformBranchCollides
      (frameNames [⟨"r_0", ""⟩, ⟨"r_1", ""⟩, ⟨"r_2", ""⟩, ⟨"r_3", ""⟩,
        ⟨"r_4", ""⟩, ⟨"r_5", ""⟩, ⟨"r_6", ""⟩, ⟨"r_7", ""⟩, ⟨"r_8", ""⟩,
        ⟨"r_9", ""⟩]) 3 = false ∧
    choose_views [⟨"r_0", ""⟩, ⟨"r_1", ""⟩, ⟨"r_2", ""⟩, ⟨"r_3", ""⟩,
        ⟨"r_4", ""⟩, ⟨"r_5", ""⟩, ⟨"r_6", ""⟩, ⟨"r_7", ""⟩, ⟨"r_8", ""⟩,
        ⟨"r_9", ""⟩] (some 3) [] [] "uniform" none =
      Except.ok ["r_0", "r_3", "r_6"] :=
  ⟨by decide, by decide,
    (uniform_branch_exact_count [⟨"r_0", ""⟩, ⟨"r_1", ""⟩, ⟨"r_2", ""⟩,
      ⟨"r_3", ""⟩, ⟨"r_4", ""⟩, ⟨"r_5", ""⟩, ⟨"r_6", ""⟩, ⟨"r_7", ""⟩,
      ⟨"r_8", ""⟩, ⟨"r_9", ""⟩] 3 none (by decide) (by decide)).1,
    ((uniform_branch_exact_count [⟨"r_0", ""⟩, ⟨"r_1", ""⟩, ⟨"r_2", ""⟩,
      ⟨"r_3", ""⟩, ⟨"r_4", ""⟩, ⟨"r_5", ""⟩, ⟨"r_6", ""⟩, ⟨"r_7", ""⟩,
      ⟨"r_8", ""⟩, ⟨"r_9", ""⟩] 3 none (by decide) (by decide)).2.1).trans
      (by rfl)⟩

/-- Counterexample to C5 as stated: when two frames normalize to the same
name, the take-all branch (absent `view_count`) returns the raw
`frame_names` list without deduplication, so the output repeats a name. -/
theorem selector_duplicate_output_cex :
    choose_views [⟨"./a.png", "p"⟩, ⟨"a.png", "q"⟩] none [] [] "uniform" none =
      Except.ok ["a", "a"] ∧ ¬ (["a", "a"] : List String).Nodup :=
  ⟨rfl, by decide⟩

/-- C5 amended: the names and indices branches are duplicate-free
unconditionally; the take-all, random and uniform branches are
duplicate-free whenever the catalog's normalized names are pairwise
distinct (when two frames normalize to the same name, the count-based
branches can repeat it). -/
theorem selector_nodup_of_distinct_catalog
    (frames : List Frame) (view_count : Option Int) (indices : List Int)
    (names : List String) (strategy : String) (seed : Option Int)
    (r : List String)
    (hok : choose_views frames view_count indices names strategy seed =
      Except.ok r)
    (h : names ≠ [] ∨ indices ≠ [] ∨ (frameNames frames).Nodup) :
    r.Nodup := by
  unfold choose_views chooseViewsNames at hok
  by_cases hn : names ≠ []
  · rw [if_pos hn] at hok
    injection hok with hr
    rw [← hr]
    exact dedupFirst_nodup _
  · rw [if_neg hn] at hok
    by_cases hi : indices ≠ []
    · rw [if_pos hi] at hok
      injection hok with hr
      rw [← hr]
      exact dedupFirst_nodup _
    · rw [if_neg hi] at hok
      have hcat : (frameNames frames).Nodup := by
        rcases h with h | h | h
        · exact absurd h hn
        · exact absurd h hi
        · exact h
      cases view_count with
      | none =>
        injection hok with hr
        rw [← hr]
        exact hcat
      | some vc =>
        have hok2 : (if vc ≥ ((frameNames frames).length : Int) then
              Except.ok (frameNames frames)
            else if strategy = "random" then
              if 0 ≤ min vc ((frameNames frames).length : Int) then
                Except.ok (pySample seed (frameNames frames)
                  (min vc ((frameNames frames).length : Int)).toNat)
              else
                Except.error
                  "ValueError: sample larger than population or is negative"
            else
              if vc = 0 then
                Except.error "ZeroDivisionError: division by zero"
              else
                Except.ok (uniformSelect (frameNames frames) vc.toNat)) =
            Except.ok r := hok
        clear hok
        rename' hok2 => hok
        by_cases hge : vc ≥ ((frameNames frames).length : Int)
        · rw [if_pos hge] at hok
          injection hok with hr
          rw [← hr]
          exact hcat
        · rw [if_neg hge] at hok
          by_cases hs : strategy = "random"
          · rw [if_pos hs] at hok
            by_cases hk : 0 ≤ min vc ((frameNames frames).length : Int)
            · rw [if_pos hk] at hok
              injection hok with hr
              rw [← hr]
              exact subperm_nodup (sampleGo_subperm _ _ _) hcat
            · rw [if_neg hk] at hok
              cases hok
          · rw [if_neg hs] at hok
            by_cases h0 : vc = 0
            · rw [if_pos h0] at hok
              cases hok
            · rw [if_neg h0] at hok
              injection hok with hr
              rw [← hr]
              by_cases hv : vc ≤ 0
              · have hz : vc.toNat = 0 := by omega
                rw [hz]
                show (uniformSelect (frameNames frames) 0).Nodup
                simp [uniformSelect, uniformIndices, collisionGo]
              · have h1 : 1 ≤ vc.toNat := by omega
                have h2 : vc.toNat < (frameNames frames).length := by omega
                rw [uniformSelect_eq h1 h2]
                have hlen0 : 0 < (frameNames frames).length := by omega
                exact map_getD_nodup hcat (uniformIndices_nodup h1 h2)
                  (uniformIndices_lt_len hlen0)

/-- Witness for C5 (amended): a duplicate-free catalog makes the take-all
result duplicate-free. -/
theorem selector_nodup_of_distinct_catalog_witness :
    choose_views [⟨"r_0.png", "a"⟩, ⟨"r_1.png", "b"⟩] none [] [] "uniform"
        none = Except.ok ["r_0", "r_1"] ∧
    (([] : List String) ≠ [] ∨ ([] : List Int) ≠ [] ∨
      (frameNames [⟨"r_0.png", "a"⟩, ⟨"r_1.png", "b"⟩]).Nodup) ∧
    (["r_0", "r_1"] : List String).Nodup :=
  ⟨rfl, Or.inr (Or.inr (by decide)),
    selector_nodup_of_distinct_catalog [⟨"r_0.png", "a"⟩, ⟨"r_1.png", "b"⟩]
      none [] [] "uniform" none ["r_0", "r_1"] rfl
      (Or.inr (Or.inr (by decide)))⟩

/-- Counterexample to C2 as stated: with `transforms_train.json` missing,
a pre-existing subset directory is NOT left unchanged — the directory is
destroyed and recreated (lines 106-108) before the training-manifest check
(lines 117-119), so its previous contents are gone when the operation
fails. -/
theorem missing_train_destroys_existing_dir_cex :
    (create_view_subset ⟨none, none, none⟩
        ⟨true, [("transforms_test.json",
          ⟨[⟨"./test/r_0.png", "pose"⟩], [("camera_angle_x", "0.69")]⟩)]⟩
        none ⟨[], [], none, none, none⟩ true).1 ≠
      ⟨true, [("transforms_test.json",
        ⟨[⟨"./test/r_0.png", "pose"⟩], [("camera_angle_x", "0.69")]⟩)]⟩ ∧
    (create_view_subset ⟨none, none, none⟩
        ⟨true, [("transforms_test.json",
          ⟨[⟨"./test/r_0.png", "pose"⟩], [("camera_angle_x", "0.69")]⟩)]⟩
        none ⟨[], [], none, none, none⟩ true).2 =
      Except.error "FileNotFoundError: Transform file not found" :=
  ⟨by decide, rfl⟩

/-- C2 amended: a missing training manifest is a fatal precondition
failure raised before any manifest output is written, but the subset
directory is destroyed and recreated BEFORE the validation, so the
operation always ends with a freshly recreated empty subset directory —
a pre-existing directory of the target name loses its contents rather
than being left unchanged. -/
theorem missing_train_manifest_aborts
    (raw : RawDir) (pre : SubsetDirState) (view_count : Option Int)
    (selection : Selection) (full_test_set : Bool) (h : raw.train = none) :
    create_view_subset raw pre view_count selection full_test_set =
      (⟨true, []⟩, Except.error "FileNotFoundError: Transform file not found") := by
  simp [create_view_subset, h]

/-- Witness for C2 (amended) on a dataset with only test/val manifests. -/
theorem missing_train_manifest_aborts_witness :
    (RawDir.train ⟨none, none, some ⟨[], []⟩⟩) = none ∧
    create_view_subset ⟨none, none, some ⟨[], []⟩⟩
        ⟨false, []⟩ (some 3) ⟨[], [], none, none, none⟩ true =
      (⟨true, []⟩, Except.error "FileNotFoundError: Transform file not found") :=
  ⟨rfl, missing_train_manifest_aborts ⟨none, none, some ⟨[], []⟩⟩
    ⟨false, []⟩ (some 3) ⟨[], [], none, none, none⟩ true rfl⟩

/-- A held-out manifest is written back unchanged: filtering with
`use_full = true` keeps every frame and every other field. -/
theorem processManifest_heldout (selected : List String) (name : String)
    (m : Manifest) (h : ¬name = "transforms_train.json") :
    processManifest selected true name m = m := by
  simp [processManifest, h]

/-- On any successful run with `full_test_set = true`, the val and test
manifests written into the subset directory are the raw manifests,
untouched, whatever the selection was. -/
theorem lookup_heldout_of_ok
    (raw : RawDir) (pre : SubsetDirState) (vc : Option Int) (sel : Selection)
    (s : SubsetSummary)
    (hok : (create_view_subset raw pre vc sel true).2 = Except.ok s) :
    (∀ te, raw.test = some te →
      fileLookup (create_view_subset raw pre vc sel true).1.files
        "transforms_test.json" = some te) ∧
    (∀ va, raw.val = some va →
      fileLookup (create_view_subset raw pre vc sel true).1.files
        "transforms_val.json" = some va) := by
  cases htr : raw.train with
  | none => simp [create_view_subset, htr] at hok
  | some t =>
    cases hc : choose_views t.frames (pyOr vc sel.view_count) sel.indices
        sel.names (sel.strategy.getD "uniform") sel.seed with
    | error e => simp [create_view_subset, htr, hc] at hok
    | ok sv =>
      have hstate : (create_view_subset raw pre vc sel true).1.files =
          (transformFiles t raw).map
            (fun p => (p.1, processManifest sv true p.1 p.2)) := by
        simp [create_view_subset, htr, hc]
      rw [hstate]
      constructor
      · intro te hte
        cases hval : raw.val with
        | none =>
          simp [transformFiles, fileLookup, hte, hval,
            processManifest_heldout sv "transforms_test.json" te (by decide)]
        | some va =>
          simp [transformFiles, fileLookup, hte, hval,
            processManifest_heldout sv "transforms_test.json" te (by decide)]
      · intro va hva
        simp [transformFiles, fileLookup, hva,
          processManifest_heldout sv "transforms_val.json" va (by decide)]

/-- C1: for any two successful invocations on the same raw dataset with
`full_test_set = true` — whatever their view counts or selection policies —
the held-out manifests written into the two subset directories are
identical: each equals the raw manifest with its frame list retained in
full, independent of the Selected View Set. -/
theorem heldout_manifests_policy_independent
    (raw : RawDir) (pre1 pre2 : SubsetDirState) (vc1 vc2 : Option Int)
    (sel1 sel2 : Selection) (s1 s2 : SubsetSummary) (te : Manifest)
    (h1 : (create_view_subset raw pre1 vc1 sel1 true).2 = Except.ok s1)
    (h2 : (create_view_subset raw pre2 vc2 sel2 true).2 = Except.ok s2)
    (hte : raw.test = some te) :
    fileLookup (create_view_subset raw pre1 vc1 sel1 true).1.files
      "transforms_test.json" = some te ∧
    fileLookup (create_view_subset raw pre2 vc2 sel2 true).1.files
      "transforms_test.json" = some te ∧
    (∀ va, raw.val = some va →
      fileLookup (create_view_subset raw pre1 vc1 sel1 true).1.files
        "transforms_val.json" =
      fileLookup (create_view_subset raw pre2 vc2 sel2 true).1.files
        "transforms_val.json") :=
  ⟨(lookup_heldout_of_ok raw pre1 vc1 sel1 s1 h1).1 te hte,
   (lookup_heldout_of_ok raw pre2 vc2 sel2 s2 h2).1 te hte,
   fun va hva =>
     ((lookup_heldout_of_ok raw pre1 vc1 sel1 s1 h1).2 va hva).trans
       (((lookup_heldout_of_ok raw pre2 vc2 sel2 s2 h2).2 va hva).symm)⟩

/-- Witness for C1: the same raw dataset subset with `view_count=3` and
`view_count=8` writes the identical, untouched test manifest both times. -/
theorem heldout_manifests_policy_independent_witness :
    (create_view_subset
        ⟨some ⟨[⟨"./train/r_0", "p0"⟩, ⟨"./train/r_1", "p1"⟩,
            ⟨"./train/r_2", "p2"⟩, ⟨"./train/r_3", "p3"⟩],
          [("camera_angle_x", "0.69")]⟩, none,
          some ⟨[⟨"./test/t_0", "q0"⟩, ⟨"./test/t_1", "q1"⟩],
            [("camera_angle_x", "0.69")]⟩⟩
        ⟨false, []⟩ (some 3) ⟨[], [], none, none, none⟩ true).2 =
      Except.ok ⟨3, ["r_0", "r_1", "r_2"], "uniform",
        [("transforms_train.json", 3), ("transforms_test.json", 2)]⟩ ∧
    (create_view_subset
        ⟨some ⟨[⟨"./train/r_0", "p0"⟩, ⟨"./train/r_1", "p1"⟩,
            ⟨"./train/r_2", "p2"⟩, ⟨"./train/r_3", "p3"⟩],
          [("camera_angle_x", "0.69")]⟩, none,
          some ⟨[⟨"./test/t_0", "q0"⟩, ⟨"./test/t_1", "q1"⟩],
            [("camera_angle_x", "0.69")]⟩⟩
        ⟨true, [("stale.json", ⟨[], []⟩)]⟩ (some 8)
        ⟨[], [], none, none, none⟩ true).2 =
      Except.ok ⟨4, ["r_0", "r_1", "r_2", "r_3"], "uniform",
        [("transforms_train.json", 4), ("transforms_test.json", 2)]⟩ ∧
    fileLookup (create_view_subset
        ⟨some ⟨[⟨"./train/r_0", "p0"⟩, ⟨"./train/r_1", "p1"⟩,
            ⟨"./train/r_2", "p2"⟩, ⟨"./train/r_3", "p3"⟩],
          [("camera_angle_x", "0.69")]⟩, none,
          some ⟨[⟨"./test/t_0", "q0"⟩, ⟨"./test/t_1", "q1"⟩],
            [("camera_angle_x", "0.69")]⟩⟩
        ⟨false, []⟩ (some 3) ⟨[], [], none, none, none⟩ true).1.files
      "transforms_test.json" =
      some ⟨[⟨"./test/t_0", "q0"⟩, ⟨"./test/t_1", "q1"⟩],
        [("camera_angle_x", "0.69")]⟩ ∧
    fileLookup (create_view_subset
        ⟨some ⟨[⟨"./train/r_0", "p0"⟩, ⟨"./train/r_1", "p1"⟩,
            ⟨"./train/r_2", "p2"⟩, ⟨"./train/r_3", "p3"⟩],
          [("camera_angle_x", "0.69")]⟩, none,
          some ⟨[⟨"./test/t_0", "q0"⟩, ⟨"./test/t_1", "q1"⟩],
            [("camera_angle_x", "0.69")]⟩⟩
        ⟨true, [("stale.json", ⟨[], []⟩)]⟩ (some 8)
        ⟨[], [], none, none, none⟩ true).1.files
      "transforms_test.json" =
      some ⟨[⟨"./test/t_0", "q0"⟩, ⟨"./test/t_1", "q1"⟩],
        [("camera_angle_x", "0.69")]⟩ := by
  have h1 : (create_view_subset
      ⟨some ⟨[⟨"./train/r_0", "p0"⟩, ⟨"./train/r_1", "p1"⟩,
          ⟨"./train/r_2", "p2"⟩, ⟨"./train/r_3", "p3"⟩],
        [("camera_angle_x", "0.69")]⟩, none,
        some ⟨[⟨"./test/t_0", "q0"⟩, ⟨"./test/t_1", "q1"⟩],
          [("camera_angle_x", "0.69")]⟩⟩
      ⟨false, []⟩ (some 3) ⟨[], [], none, none, none⟩ true).2 =
      Except.ok ⟨3, ["r_0", "r_1", "r_2"], "uniform",
        [("transforms_train.json", 3), ("transforms_test.json", 2)]⟩ := by
    rfl
  have h2 : (create_view_subset
      ⟨some ⟨[⟨"./train/r_0", "p0"⟩, ⟨"./train/r_1", "p1"⟩,
          ⟨"./train/r_2", "p2"⟩, ⟨"./train/r_3", "p3"⟩],
        [("camera_angle_x", "0.69")]⟩, none,
        some ⟨[⟨"./test/t_0", "q0"⟩, ⟨"./test/t_1", "q1"⟩],
          [("camera_angle_x", "0.69")]⟩⟩
      ⟨true, [("stale.json", ⟨[], []⟩)]⟩ (some 8)
      ⟨[], [], none, none, none⟩ true).2 =
      Except.ok ⟨4, ["r_0", "r_1", "r_2", "r_3"], "uniform",
        [("transforms_train.json", 4), ("transforms_test.json", 2)]⟩ := by
    rfl
  exact ⟨h1, h2,
    (heldout_manifests_policy_independent _ _ _ _ _ _ _ _ _ _ h1 h2 rfl).1,
    (heldout_manifests_policy_independent _ _ _ _ _ _ _ _ _ _ h1 h2 rfl).2.1⟩

/-- C9: every manifest written into the subset directory is stored under
its input's original file name and round-trips every top-level field other
than `frames` unchanged — it is exactly the corresponding raw manifest
with only the frame list replaced by the filtered list. -/
theorem output_manifests_roundtrip_rest
    (raw : RawDir) (pre : SubsetDirState) (vc : Option Int) (sel : Selection)
    (ft : Bool) (s : SubsetSummary)
    (hok : (create_view_subset raw pre vc sel ft).2 = Except.ok s)
    (nm : String) (om : Manifest)
    (hmem : (nm, om) ∈ (create_view_subset raw pre vc sel ft).1.files) :
    ∃ im, rawManifest raw nm = some im ∧ om.rest = im.rest ∧
      om = processManifest s.selected_views ft nm im := by
  cases htr : raw.train with
  | none => simp [create_view_subset, htr] at hok
  | some t =>
    cases hc : choose_views t.frames (pyOr vc sel.view_count) sel.indices
        sel.names (sel.strategy.getD "uniform") sel.seed with
    | error e => simp [create_view_subset, htr, hc] at hok
    | ok sv =>
      have hok2 : (create_view_subset raw pre vc sel ft).2 = Except.ok
          ({ view_count := sv.length, selected_views := sv,
             strategy := sel.strategy.getD "uniform",
             files := ((transformFiles t raw).map
               (fun p => (p.1, processManifest sv ft p.1 p.2))).map
                 (fun p => (p.1, p.2.frames.length)) } : SubsetSummary) := by
        simp [create_view_subset, htr, hc]
      rw [hok2] at hok
      injection hok with hs
      have hsel : s.selected_views = sv := by rw [← hs]
      have hstate : (create_view_subset raw pre vc sel ft).1.files =
          (transformFiles t raw).map
            (fun p => (p.1, processManifest sv ft p.1 p.2)) := by
        simp [create_view_subset, htr, hc]
      rw [hstate] at hmem
      rw [hsel]
      cases hval : raw.val with
      | none =>
        cases hte : raw.test with
        | none =>
          simp [transformFiles, hval, hte] at hmem
          obtain ⟨rfl, rfl⟩ := hmem
          exact ⟨t, by simp [rawManifest, htr], rfl, rfl⟩
        | some te =>
          simp [transformFiles, hval, hte] at hmem
          rcases hmem with ⟨rfl, rfl⟩ | ⟨rfl, rfl⟩
          · exact ⟨t, by simp [rawManifest, htr], rfl, rfl⟩
          · exact ⟨te, by simp [rawManifest, hte], rfl, rfl⟩
      | some va =>
        cases hte : raw.test with
        | none =>
          simp [transformFiles, hval, hte] at hmem
          rcases hmem with ⟨rfl, rfl⟩ | ⟨rfl, rfl⟩
          · exact ⟨t, by simp [rawManifest, htr], rfl, rfl⟩
          · exact ⟨va, by simp [rawManifest, hval], rfl, rfl⟩
        | some te =>
          simp [transformFiles, hval, hte] at hmem
          rcases hmem with ⟨rfl, rfl⟩ | ⟨rfl, rfl⟩ | ⟨rfl, rfl⟩
          · exact ⟨t, by simp [rawManifest, htr], rfl, rfl⟩
          · exact ⟨va, by simp [rawManifest, hval], rfl, rfl⟩
          · exact ⟨te, by simp [rawManifest, hte], rfl, rfl⟩

/-- Witness for C9 on a concrete dataset: the written test manifest keeps
its `camera_angle_x` field. -/
theorem output_manifests_roundtrip_rest_witness :
    (create_view_subset
        ⟨some ⟨[⟨"./train/r_0", "p0"⟩, ⟨"./train/r_1", "p1"⟩], [("camera_angle_x", "0.5")]⟩,
          none, some ⟨[⟨"./test/t_0", "q0"⟩], [("camera_angle_x", "0.5")]⟩⟩
        ⟨false, []⟩ (some 1) ⟨[], [], none, none, none⟩ true).2 =
      Except.ok ⟨1, ["r_0"], "uniform",
        [("transforms_train.json", 1), ("transforms_test.json", 1)]⟩ ∧
    ("transforms_test.json", (⟨[⟨"./test/t_0", "q0"⟩], [("camera_angle_x", "0.5")]⟩ : Manifest)) ∈
      (create_view_subset
        ⟨some ⟨[⟨"./train/r_0", "p0"⟩, ⟨"./train/r_1", "p1"⟩], [("camera_angle_x", "0.5")]⟩,
          none, some ⟨[⟨"./test/t_0", "q0"⟩], [("camera_angle_x", "0.5")]⟩⟩
        ⟨false, []⟩ (some 1) ⟨[], [], none, none, none⟩ true).1.files ∧
    ∃ im, rawManifest
        ⟨some ⟨[⟨"./train/r_0", "p0"⟩, ⟨"./train/r_1", "p1"⟩], [("camera_angle_x", "0.5")]⟩,
          none, some ⟨[⟨"./test/t_0", "q0"⟩], [("camera_angle_x", "0.5")]⟩⟩
        "transforms_test.json" = some im ∧
      (⟨[⟨"./test/t_0", "q0"⟩], [("camera_angle_x", "0.5")]⟩ : Manifest).rest = im.rest ∧
      (⟨[⟨"./test/t_0", "q0"⟩], [("camera_angle_x", "0.5")]⟩ : Manifest) =
        processManifest (SubsetSummary.selected_views ⟨1, ["r_0"], "uniform",
          [("transforms_train.json", 1), ("transforms_test.json", 1)]⟩) true
          "transforms_test.json" im := by
  have h1 : (create_view_subset
      ⟨some ⟨[⟨"./train/r_0", "p0"⟩, ⟨"./train/r_1", "p1"⟩], [("camera_angle_x", "0.5")]⟩,
        none, some ⟨[⟨"./test/t_0", "q0"⟩], [("camera_angle_x", "0.5")]⟩⟩
      ⟨false, []⟩ (some 1) ⟨[], [], none, none, none⟩ true).2 =
      Except.ok ⟨1, ["r_0"], "uniform",
        [("transforms_train.json", 1), ("transforms_test.json", 1)]⟩ := by rfl
  have h2 : ("transforms_test.json",
      (⟨[⟨"./test/t_0", "q0"⟩], [("camera_angle_x", "0.5")]⟩ : Manifest)) ∈
      (create_view_subset
        ⟨some ⟨[⟨"./train/r_0", "p0"⟩, ⟨"./train/r_1", "p1"⟩], [("camera_angle_x", "0.5")]⟩,
          none, some ⟨[⟨"./test/t_0", "q0"⟩], [("camera_angle_x", "0.5")]⟩⟩
        ⟨false, []⟩ (some 1) ⟨[], [], none, none, none⟩ true).1.files := by decide
  exact ⟨h1, h2,
    output_manifests_roundtrip_rest _ _ _ _ _ _ h1 _ _ h2⟩

/-- C10: the positional `view_count=0` is coalesced away by Python
truthiness (`view_count or selection.get("view_count")`), so the call
behaves exactly as if no positional count had been passed: the effective
count is the selection's `view_count` when present and `None` otherwise,
and with no count at all the selector returns the full catalog rather
than an empty selection. -/
theorem zero_view_count_takes_all
    (raw : RawDir) (pre : SubsetDirState) (sel : Selection) (ft : Bool) :
    create_view_subset raw pre (some 0) sel ft =
      create_view_subset raw pre none sel ft ∧
    (∀ t, raw.train = some t → sel.view_count = none → sel.names = [] →
      sel.indices = [] →
      ∃ s, (create_view_subset raw pre (some 0) sel ft).2 = Except.ok s ∧
        s.selected_views = frameNames t.frames) := by
  constructor
  · simp [create_view_subset, pyOr]
  · intro t ht hvc hnm hidx
    have hchoose : choose_views t.frames (pyOr (some 0) sel.view_count)
        sel.indices sel.names (sel.strategy.getD "uniform") sel.seed =
        Except.ok (frameNames t.frames) := by
      rw [hvc, hnm, hidx]
      rfl
    refine ⟨{ view_count := (frameNames t.frames).length,
              selected_views := frameNames t.frames,
              strategy := sel.strategy.getD "uniform",
              files := ((transformFiles t raw).map
                (fun p => (p.1, processManifest (frameNames t.frames) ft p.1 p.2))).map
                  (fun p => (p.1, p.2.frames.length)) }, ?_, rfl⟩
    simp [create_view_subset, ht, hchoose]

/-- Witness for C10: `view_count=0` with an empty selection takes all
three catalog views. -/
theorem zero_view_count_takes_all_witness :
    ∃ s, (create_view_subset
        ⟨some ⟨[⟨"./r_0.png", "a"⟩, ⟨"./r_1.png", "b"⟩, ⟨"./r_2.png", "c"⟩], []⟩,
          none, none⟩
        ⟨false, []⟩ (some 0) ⟨[], [], none, none, none⟩ true).2 = Except.ok s ∧
      s.selected_views =
        frameNames [⟨"./r_0.png", "a"⟩, ⟨"./r_1.png", "b"⟩, ⟨"./r_2.png", "c"⟩] :=
  (zero_view_count_takes_all
    ⟨some ⟨[⟨"./r_0.png", "a"⟩, ⟨"./r_1.png", "b"⟩, ⟨"./r_2.png", "c"⟩], []⟩,
      none, none⟩
    ⟨false, []⟩ ⟨[], [], none, none, none⟩ true).2
    ⟨[⟨"./r_0.png", "a"⟩, ⟨"./r_1.png", "b"⟩, ⟨"./r_2.png", "c"⟩], []⟩
    rfl rfl rfl rfl
